import Mathlib

/-
Verification of the inventory-alert pipeline (src/inventory_alert.py): the
alert classifier, the pagination loop, the flatten/merge normalization step,
the pre-classification filters of main, and the report sort of
send_email_notification, shallowly embedded over rational-valued cells.
-/

namespace InventoryAlert

/-- A scalar cell value as it appears in a DataFrame cell: a number, a
string, or a missing value (None / NaN). -/
inductive Value where
  | num (q : ℚ)
  | str (s : String)
  | null
deriving DecidableEq, Repr

/-- A DataFrame row: an association list from column name to cell value. -/
abbrev Row := List (String × Value)

/-- Cell access: a column missing from the row reads as a missing value. -/
def getCol (r : Row) (c : String) : Value := (List.lookup c r).getD .null

/-- A DataFrame: its column names and its rows. -/
structure DF where
  cols : List String
  rows : List Row
deriving DecidableEq, Repr

/-- Code-point lexicographic comparison of character lists, as Python
compares strings. -/
def charsLt : List Char → List Char → Bool
  | _, [] => false
  | [], _ :: _ => true
  | a :: as, b :: bs => a.toNat < b.toNat || (a.toNat = b.toNat && charsLt as bs)

/-- Python string comparison s < t (code-point lexicographic). -/
def strLt (s t : String) : Bool := charsLt s.data t.data

/-- Numeric value of a digit list (no validity check). -/
def natOfDigits (cs : List Char) : ℕ :=
  cs.foldl (fun a c => 10 * a + (c.toNat - 48)) 0

/-- A nonempty all-digit character list, parsed; anything else fails. -/
def digitsToNat (cs : List Char) : Option ℕ :=
  if cs.all Char.isDigit && !cs.isEmpty then some (natOfDigits cs) else none

/-- Model of the numeric parsing pd.to_numeric applies to a string: an
optional sign followed by a plain decimal literal; anything else fails. -/
def parseNum (s : String) : Option ℚ :=
  let signed : ℚ × List Char :=
    match s.data with
    | '-' :: rest => (-1, rest)
    | '+' :: rest => (1, rest)
    | cs => (1, cs)
  match signed.2.splitOn '.' with
  | [ip] => (digitsToNat ip).map (fun n => signed.1 * n)
  | [ip, fp] =>
      if (ip ++ fp).all Char.isDigit && !(ip ++ fp).isEmpty then
        some (signed.1 * ((natOfDigits ip : ℚ) + natOfDigits fp / 10 ^ fp.length))
      else none
  | _ => none

/-- pd.to_numeric with errors="coerce" on one cell: numbers pass through,
strings are parsed, anything unparseable or missing gives NaN (none). -/
def to_numeric : Value → Option ℚ
  | .num q => some q
  | .str s => parseNum s
  | .null => none

/-- Python comparison a <= b on cell values: defined between two numbers or
between two strings (code-point order); NaN compares False against numbers;
mixing a string with a number or with NaN raises TypeError. -/
def pyLE : Value → Value → Except String Bool
  | .num a, .num b => .ok (decide (a ≤ b))
  | .str s, .str t => .ok (strLt s t || decide (s = t))
  | .null, .str _ => .error "TypeError"
  | .str _, .null => .error "TypeError"
  | .null, _ => .ok false
  | _, .null => .ok false
  | _, _ => .error "TypeError"

/-- Python comparison a < b on cell values, same conventions as pyLE. -/
def pyLT : Value → Value → Except String Bool
  | .num a, .num b => .ok (decide (a < b))
  | .str s, .str t => .ok (strLt s t)
  | .null, .str _ => .error "TypeError"
  | .str _, .null => .error "TypeError"
  | .null, _ => .ok false
  | _, .null => .ok false
  | _, _ => .error "TypeError"

/-- The row-wise classifier alert_logic of generate_inventory_alerts
(lines 31-41): NaN thresholds default to 0 via pd.notna, then the first
matching rule wins. -/
def alert_logic (row : Row) : Except String String := do
  let quantity : Value := if getCol row "quantity" = .null then .num 0 else getCol row "quantity"
  let par_level : Value := if getCol row "par_level" = .null then .num 0 else getCol row "par_level"
  let critical_level : Value :=
    if getCol row "critical_level" = .null then .num 0 else getCol row "critical_level"
  if (← pyLE quantity critical_level) then
    return "URGENT: Critically Low Stock!"
  else if (← pyLT quantity par_level) then
    return "Warning: Stock is Low"
  else
    return "Stock OK"

/-- One page response from the inventories endpoint: either some exception
(transport error, non-2xx status raised by raise_for_status, or malformed
JSON), or a parsed JSON body whose data field may be absent. -/
inductive PageResp (α : Type) where
  | transportError
  | json (data : Option (List α))
deriving DecidableEq, Repr

/-- The pagination loop of get_inventory_data (lines 149-188): page number n
is the n-th element of the response sequence, acc holds the records
accumulated so far.  A missing or falsy data field stops before extending;
a short page stops after extending; every caught exception stops with the
accumulator unchanged. -/
def get_inventory_data_loop {α : Type} (per_page : ℕ) :
    List (PageResp α) → List α → List α
  | [], acc => acc
  | .transportError :: _, acc => acc
  | .json none :: _, acc => acc
  | .json (some d) :: rest, acc =>
      if d.isEmpty then acc
      else if d.length < per_page then acc ++ d
      else get_inventory_data_loop per_page rest (acc ++ d)

/-- The stop conditions of the pagination loop: any caught exception, a
body without a data field, or a page whose data list is empty or shorter
than per_page. -/
def stopPage {α : Type} (per_page : ℕ) : PageResp α → Prop
  | .transportError => True
  | .json none => True
  | .json (some d) => d = [] ∨ d.length < per_page

/-- What the stopping page itself contributes to the accumulated records:
nothing on an exception, a missing data field or an empty data list; its
own records when it is a short final page. -/
def stopContribution {α : Type} : PageResp α → List α
  | .transportError => []
  | .json none => []
  | .json (some d) => if d.isEmpty then [] else d

/-- The inventories cell of one raw record as pd.json_normalize leaves it:
either a list of line records, or some non-list value (NaN included). -/
inductive InvVal where
  | notList
  | lines (ls : List Row)
deriving DecidableEq, Repr

/-- Whether the raw JSON record carried the inventories key at all. -/
inductive InvField where
  | absent
  | present (v : InvVal)
deriving DecidableEq, Repr

/-- One top-level record of the normalized fetch output: its scalar columns
and its inventories field. -/
structure RawRecord where
  fields : Row
  inventories : InvField
deriving DecidableEq, Repr

/-- The per-record list substitution of line 214: a present list is kept,
anything else (NaN from an absent key, or a non-list value) becomes []. -/
def getLines (r : RawRecord) : List Row :=
  match r.inventories with
  | .present (.lines ls) => ls
  | _ => []

/-- Whether the parent DataFrame has an inventories column at all:
pd.json_normalize creates the column exactly when some record carries the
key; line 214 raises KeyError otherwise. -/
def hasInvColumn (records : List RawRecord) : Bool :=
  records.any (fun r => match r.inventories with | .absent => false | .present _ => true)

/-- The parent rows (inventory_df with the inventories column dropped), with
unique_id set to the positional index, indices starting at n. -/
def parentsFrom (n : ℕ) : List RawRecord → List Row
  | [] => []
  | r :: rs => (("unique_id", Value.num n) :: r.fields) :: parentsFrom (n + 1) rs

/-- The exploded inventory lines of lines 217-222: one row per line, tagged
with the parent's positional index as unique_id, indices starting at n. -/
def taggedFrom (n : ℕ) : List RawRecord → List Row
  | [] => []
  | r :: rs =>
      (getLines r).map (fun ln => ("unique_id", Value.num n) :: ln) ++ taggedFrom (n + 1) rs

/-- pd.merge(parents, lines, on="unique_id", how="left") of line 234: every
parent row is kept in order; a parent with matching line rows produces one
concatenated row per match, a parent with no match produces a single row
whose line columns stay absent and hence read as missing. -/
def leftJoin (parents lines : List Row) : List Row :=
  parents.flatMap (fun p =>
    let ms := lines.filter (fun m => decide (getCol m "unique_id" = getCol p "unique_id"))
    if ms.isEmpty then [p] else ms.map (fun m => p ++ m))

/-- First-seen union of the keys of a list of rows: the column set of the
frame assembled from them. -/
def unionKeys (rows : List Row) : List String :=
  rows.foldl (fun acc r =>
    r.foldl (fun acc2 kv => if kv.1 ∈ acc2 then acc2 else acc2 ++ [kv.1]) acc) []

/-- The projection whitelist of lines 240-244. -/
def columnstokeep : List String :=
  ["store.title", "store.cycle_count_system_value", "store.cycle_count_system_type",
   "title", "type", "model", "manufacturer", "asset_model", "unit_measurement",
   "internal_reference", "archive", "price", "unique_id", "quantity", "par_level",
   "critical_level"]

/-- The columns coerced to numeric (line 250). -/
def numeric_cols : List String := ["quantity", "par_level", "critical_level"]

/-- pd.to_numeric(col, errors="coerce").fillna(0) on one cell (line 253). -/
def coerceCell (v : Value) : Value := .num ((to_numeric v).getD 0)

/-- Pointwise update of the cells of one column within a row. -/
def updateCol (c : String) (f : Value → Value) (r : Row) : Row :=
  r.map (fun kv => if kv.1 = c then (kv.1, f kv.2) else kv)

/-- Whether a cell holds a number (hence neither a string nor missing). -/
def Value.isNum : Value → Bool
  | .num _ => true
  | _ => false

/-- Normalization used to compare behaviours: force the inventories field
to exactly the list the flattener substitutes for it on line 214. -/
def normalizeInv (r : RawRecord) : RawRecord :=
  { r with inventories := InvField.present (InvVal.lines (getLines r)) }

/-- merged_data.fillna(0) of line 256, on one row. -/
def fillRow0 (r : Row) : Row :=
  r.map (fun kv => if kv.2 = .null then (kv.1, Value.num 0) else kv)

/-- The column projection of line 247: every row is restricted to the kept
columns, a kept column missing from a row reading as a missing value. -/
def projectRows (cols : List String) (rows : List Row) : List Row :=
  rows.map (fun r => cols.map (fun c => (c, getCol r c)))

/-- The column-wise numeric coercion of lines 250-253, applied to a single
row: each of the three numeric columns that exists is coerced. -/
def coerceRow (cols : List String) (r : Row) : Row :=
  numeric_cols.foldl (fun r2 c => if c ∈ cols then updateCol c coerceCell r2 else r2) r

/-- The column-wise numeric coercion of lines 250-253 over the whole frame:
for each of the three numeric columns, if the column exists, coerce it with
errors="coerce" and fill the produced missing values with 0. -/
def coerceNumeric (cols : List String) (rows : List Row) : List Row :=
  numeric_cols.foldl
    (fun rws c => if c ∈ cols then rws.map (updateCol c coerceCell) else rws) rows

/-- flatten_process_inventory_data (lines 212-257): substitute [] for any
non-list inventories cell (KeyError when the column does not exist at all),
explode the lines tagged by parent index, left-merge them back onto the
parents, project to the whitelisted columns, coerce the three numeric
columns with errors="coerce" and fill the remaining missing values with 0. -/
def flatten_process_inventory_data (records : List RawRecord) : Except String DF :=
  if hasInvColumn records then
    let parents := parentsFrom 0 records
    let tagged := taggedFrom 0 records
    let merged := if tagged.isEmpty then parents else leftJoin parents tagged
    let mergedCols := unionKeys merged
    if merged.isEmpty then .ok ⟨mergedCols, merged⟩
    else
      let projCols := mergedCols.filter (fun c => c ∈ columnstokeep)
      .ok ⟨projCols, (coerceNumeric projCols (projectRows projCols merged)).map fillRow0⟩
  else .error "KeyError: inventories"

/-- Rows of a successful result; a raised exception has no rows. -/
def okRows : Except String DF → List Row
  | .ok df => df.rows
  | .error _ => []

/-- Columns of a successful result; a raised exception has no columns. -/
def okCols : Except String DF → List String
  | .ok df => df.cols
  | .error _ => []

/-- Line 264: keep the rows whose type cell differs from the string
"Procurement Pending"; KeyError when the column is missing. -/
def typeFilter (df : DF) : Except String DF :=
  if "type" ∈ df.cols then
    .ok ⟨df.cols, df.rows.filter (fun r => !decide (getCol r "type" = .str "Procurement Pending"))⟩
  else .error "KeyError: type"

/-- Line 265: keep the rows whose par_level cell differs from 0; KeyError
when the column is missing. -/
def parFilter (df : DF) : Except String DF :=
  if "par_level" ∈ df.cols then
    .ok ⟨df.cols, df.rows.filter (fun r => !decide (getCol r "par_level" = .num 0))⟩
  else .error "KeyError: par_level"

/-- Line 266: keep the rows whose critical_level cell differs from 0;
KeyError when the column is missing. -/
def critFilter (df : DF) : Except String DF :=
  if "critical_level" ∈ df.cols then
    .ok ⟨df.cols, df.rows.filter (fun r => !decide (getCol r "critical_level" = .num 0))⟩
  else .error "KeyError: critical_level"

/-- The DataFrame main hands to generate_inventory_alerts: the flattened
fetch output run through the three pre-classification filters of
lines 264-266. -/
def main_classifier_input (records : List RawRecord) : Except String DF :=
  flatten_process_inventory_data records >>= typeFilter >>= parFilter >>= critFilter

/-- Total comparison on cell values used to model sorting one column:
numbers by numeric order, strings by code-point order, otherwise by kind
(the sorted report columns are homogeneous, so only the first two cases are
ever exercised). -/
def valLE : Value → Value → Bool
  | .num a, .num b => decide (a ≤ b)
  | .str s, .str t => strLt s t || decide (s = t)
  | .null, _ => true
  | _, .null => false
  | .num _, .str _ => true
  | .str _, .num _ => false

/-- sort_values(by=["Quantity", "Alert"], ascending=[True, False]) of
line 73, as a pairwise order on report rows: ascending Quantity first, then
descending Alert within equal Quantity. -/
def reportSortLE (r1 r2 : Row) : Bool :=
  if getCol r1 "Quantity" = getCol r2 "Quantity" then valLE (getCol r2 "Alert") (getCol r1 "Alert")
  else valLE (getCol r1 "Quantity") (getCol r2 "Quantity")

/-- reportSortLE as a relation, for use with a comparison sort. -/
def reportLE (r1 r2 : Row) : Prop := reportSortLE r1 r2 = true

instance : DecidableRel reportLE :=
  fun r1 r2 => inferInstanceAs (Decidable (reportSortLE r1 r2 = true))

/-- The sorting step of send_email_notification (line 73), modelled with a
comparison sort over the key order of line 73 (the concrete sorting
algorithm pandas uses is a library detail; only the key order is part of
the program). -/
def sortReport (rows : List Row) : List Row := List.insertionSort reportLE rows

/-- The column renaming of lines 64-69. -/
def renameMap : List (String × String) :=
  [("store.title", "Site"), ("title", "Part Name"), ("type", "Type"), ("model", "Model"),
   ("internal_reference", "Internal Reference"), ("price", "Price"), ("quantity", "Quantity"),
   ("par_level", "Par Level"), ("critical_level", "Critical Level"), ("alert", "Alert")]

/-- Rename one column name; names outside the mapping are untouched. -/
def renameKey (c : String) : String := (renameMap.lookup c).getD c

/-- The fixed presentation column order of line 71. -/
def reportColumns : List String :=
  ["Site", "Part Name", "Type", "Model", "Internal Reference", "Price", "Quantity",
   "Par Level", "Critical Level", "Alert"]

/-- send_email_notification up to the point where the report content is
fixed (lines 62-73): filter to the Sheffield site (KeyError when
store.title is missing), rename to presentation column names, reorder to
the fixed column list (KeyError when one is missing), and sort.  The SMTP
delivery itself is an external sink and out of scope. -/
def send_email_notification (df : DF) : Except String DF :=
  if "store.title" ∈ df.cols then
    let site := df.rows.filter
      (fun r => decide (getCol r "store.title" = .str "Sheffield Parts Co. - TERP"))
    let renamedCols := df.cols.map renameKey
    let renamed := site.map (fun r => r.map (fun kv => (renameKey kv.1, kv.2)))
    if reportColumns.all (fun c => c ∈ renamedCols) then
      let reordered := renamed.map (fun r => reportColumns.map (fun c => (c, getCol r c)))
      .ok ⟨reportColumns, sortReport reordered⟩
    else .error "KeyError: columns"
  else .error "KeyError: store.title"

/-- The Warning report row of end-to-end scenario D: quantity 3. -/
def warningRow3 : Row :=
  [("Quantity", Value.num 3), ("Alert", Value.str "Warning: Stock is Low")]

/-- The URGENT report row of end-to-end scenario D: quantity 3. -/
def urgentRow3 : Row :=
  [("Quantity", Value.num 3), ("Alert", Value.str "URGENT: Critically Low Stock!")]

theorem charsLt_irrefl : ∀ as : List Char, charsLt as as = false := by
  intro as
  induction as with
  | nil => rfl
  | cons a as ih => simp [charsLt, ih]

theorem charsLt_trans : ∀ as bs cs : List Char,
    charsLt as bs = true → charsLt bs cs = true → charsLt as cs = true := by
  intro as
  induction as with
  | nil =>
    intro bs cs h1 h2
    cases bs with
    | nil => simp [charsLt] at h1
    | cons b bs =>
      cases cs with
      | nil => simp [charsLt] at h2
      | cons c cs => simp [charsLt]
  | cons a as ih =>
    intro bs cs h1 h2
    cases bs with
    | nil => simp [charsLt] at h1
    | cons b bs =>
      cases cs with
      | nil => simp [charsLt] at h2
      | cons c cs =>
        simp only [charsLt, Bool.or_eq_true, Bool.and_eq_true, decide_eq_true_eq] at h1 h2 ⊢
        rcases h1 with h1 | ⟨h1e, h1r⟩ <;> rcases h2 with h2 | ⟨h2e, h2r⟩
        · exact Or.inl (h1.trans h2)
        · exact Or.inl (h2e ▸ h1)
        · exact Or.inl (h1e ▸ h2)
        · exact Or.inr ⟨h1e.trans h2e, ih bs cs h1r h2r⟩

theorem charsLt_eq_of_not_lt : ∀ as bs : List Char,
    charsLt as bs = false → charsLt bs as = false → as = bs := by
  intro as
  induction as with
  | nil =>
    intro bs h1 _
    cases bs with
    | nil => rfl
    | cons b bs => simp [charsLt] at h1
  | cons a as ih =>
    intro bs h1 h2
    cases bs with
    | nil => simp [charsLt] at h2
    | cons b bs =>
      simp only [charsLt, Bool.or_eq_false_iff, Bool.and_eq_false_iff,
        decide_eq_false_iff_not] at h1 h2
      have hab : a.toNat = b.toNat := by omega
      have hchar : a = b := Char.ext (UInt32.ext hab)
      have h1r : charsLt as bs = false := by
        rcases h1.2 with h | h
        · exact absurd hab h
        · exact h
      have h2r : charsLt bs as = false := by
        rcases h2.2 with h | h
        · exact absurd hab.symm h
        · exact h
      rw [hchar, ih bs h1r h2r]

theorem strLt_trans (s t u : String) (h1 : strLt s t = true) (h2 : strLt t u = true) :
    strLt s u = true := by
  simp only [strLt] at h1 h2 ⊢
  exact charsLt_trans _ _ _ h1 h2

theorem strLt_asymm (s t : String) (h1 : strLt s t = true) (h2 : strLt t s = true) : False := by
  have h3 := strLt_trans s t s h1 h2
  simp only [strLt, charsLt_irrefl] at h3
  exact Bool.false_ne_true h3

theorem valLE_total : ∀ v w : Value, valLE v w = true ∨ valLE w v = true := by
  intro v w
  cases v with
  | num a =>
    cases w with
    | num b =>
      simp only [valLE, decide_eq_true_eq]
      exact le_total a b
    | str s => simp [valLE]
    | null => simp [valLE]
  | str s =>
    cases w with
    | num b => simp [valLE]
    | str t =>
      simp only [valLE, Bool.or_eq_true, decide_eq_true_eq]
      by_cases h1 : strLt s t = true
      · exact Or.inl (Or.inl h1)
      · by_cases h2 : strLt t s = true
        · exact Or.inr (Or.inl h2)
        · simp only [Bool.not_eq_true, strLt] at h1 h2
          exact Or.inl (Or.inr (String.ext (charsLt_eq_of_not_lt _ _ h1 h2)))
    | null => simp [valLE]
  | null => simp [valLE]

theorem valLE_trans : ∀ u v w : Value,
    valLE u v = true → valLE v w = true → valLE u w = true := by
  intro u v w h1 h2
  cases u with
  | num a =>
    cases v with
    | num b =>
      cases w with
      | num c =>
        simp only [valLE, decide_eq_true_eq] at h1 h2 ⊢
        exact le_trans h1 h2
      | str s => simp [valLE]
      | null => simp_all [valLE]
    | str s =>
      cases w with
      | num c => simp_all [valLE]
      | str t => simp [valLE]
      | null => simp_all [valLE]
    | null => simp_all [valLE]
  | str s =>
    cases v with
    | num b => simp_all [valLE]
    | str t =>
      cases w with
      | num c => simp_all [valLE]
      | str u2 =>
        simp only [valLE, Bool.or_eq_true, decide_eq_true_eq] at h1 h2 ⊢
        rcases h1 with h1 | h1
        · rcases h2 with h2 | h2
          · exact Or.inl (strLt_trans _ _ _ h1 h2)
          · subst h2
            exact Or.inl h1
        · subst h1
          exact h2
      | null => simp_all [valLE]
    | null => simp_all [valLE]
  | null => simp [valLE]

theorem valLE_antisymm : ∀ v w : Value, valLE v w = true → valLE w v = true → v = w := by
  intro v w h1 h2
  cases v with
  | num a =>
    cases w with
    | num b =>
      simp only [valLE, decide_eq_true_eq] at h1 h2
      exact congrArg Value.num (le_antisymm h1 h2)
    | str s => simp_all [valLE]
    | null => simp_all [valLE]
  | str s =>
    cases w with
    | num b => simp_all [valLE]
    | str t =>
      simp only [valLE, Bool.or_eq_true, decide_eq_true_eq] at h1 h2
      rcases h1 with h1 | h1
      · rcases h2 with h2 | h2
        · exact (strLt_asymm s t h1 h2).elim
        · rw [h2]
      · rw [h1]
    | null => simp_all [valLE]
  | null =>
    cases w with
    | num b => simp_all [valLE]
    | str s => simp_all [valLE]
    | null => rfl

theorem reportSortLE_total (r1 r2 : Row) :
    reportSortLE r1 r2 = true ∨ reportSortLE r2 r1 = true := by
  by_cases h : getCol r1 "Quantity" = getCol r2 "Quantity"
  · simp only [reportSortLE, if_pos h, if_pos h.symm]
    exact valLE_total _ _
  · have h2 : ¬getCol r2 "Quantity" = getCol r1 "Quantity" := fun e => h e.symm
    simp only [reportSortLE, if_neg h, if_neg h2]
    exact valLE_total _ _

theorem reportSortLE_trans (r1 r2 r3 : Row) (h1 : reportSortLE r1 r2 = true)
    (h2 : reportSortLE r2 r3 = true) : reportSortLE r1 r3 = true := by
  simp only [reportSortLE] at h1 h2 ⊢
  by_cases e12 : getCol r1 "Quantity" = getCol r2 "Quantity" <;>
    by_cases e23 : getCol r2 "Quantity" = getCol r3 "Quantity"
  · rw [if_pos e12] at h1
    rw [if_pos e23] at h2
    rw [if_pos (e12.trans e23)]
    exact valLE_trans _ _ _ h2 h1
  · have e13 : ¬getCol r1 "Quantity" = getCol r3 "Quantity" := fun e => e23 (e12.symm.trans e)
    rw [if_neg e23] at h2
    rw [if_neg e13, e12]
    exact h2
  · have e13 : ¬getCol r1 "Quantity" = getCol r3 "Quantity" := fun e => e12 (e.trans e23.symm)
    rw [if_neg e12] at h1
    rw [if_neg e13, ← e23]
    exact h1
  · by_cases e13 : getCol r1 "Quantity" = getCol r3 "Quantity"
    · rw [if_neg e12] at h1
      rw [if_neg e23, ← e13] at h2
      exact absurd (valLE_antisymm _ _ h1 h2) e12
    · rw [if_neg e12] at h1
      rw [if_neg e23] at h2
      rw [if_neg e13]
      exact valLE_trans _ _ _ h1 h2

/-- Claim C1: on any row whose quantity, par_level and critical_level cells
are numeric, alert_logic returns exactly one of the three categories,
decided first-match-wins: quantity at or below critical_level is URGENT,
otherwise quantity strictly below par_level is Warning, otherwise Stock OK;
in particular a row with quantity equal to both thresholds is URGENT. -/
theorem alert_logic_first_match (row : Row) (q p c : ℚ)
    (hq : getCol row "quantity" = .num q)
    (hp : getCol row "par_level" = .num p)
    (hc : getCol row "critical_level" = .num c) :
    alert_logic row =
      .ok (if q ≤ c then "URGENT: Critically Low Stock!"
           else if q < p then "Warning: Stock is Low"
           else "Stock OK")
    ∧ (alert_logic row = .ok "URGENT: Critically Low Stock!"
       ∨ alert_logic row = .ok "Warning: Stock is Low"
       ∨ alert_logic row = .ok "Stock OK")
    ∧ (q = c → c = p → alert_logic row = .ok "URGENT: Critically Low Stock!") := by
  have h1 : alert_logic row =
      .ok (if q ≤ c then "URGENT: Critically Low Stock!"
           else if q < p then "Warning: Stock is Low"
           else "Stock OK") := by
    simp only [alert_logic, hq, hp, hc]
    by_cases h : q ≤ c
    · simp [pyLE, pyLT, h]
      rfl
    · by_cases h2 : q < p
      · simp [pyLE, pyLT, h, h2]
        rfl
      · simp [pyLE, pyLT, h, h2]
        rfl
  refine ⟨h1, ?_, ?_⟩
  · rw [h1]
    by_cases h : q ≤ c
    · simp [h]
    · by_cases h2 : q < p <;> simp [h, h2]
  · intro h2 h3
    rw [h1, if_pos (le_of_eq h2)]

/-- Witness for C1: the all-equal triple (5, 5, 5) classifies as URGENT,
not Warning. -/
theorem alert_logic_first_match_tie :
    alert_logic [("quantity", Value.num 5), ("par_level", Value.num 5),
        ("critical_level", Value.num 5)] = .ok "URGENT: Critically Low Stock!" :=
  (alert_logic_first_match _ 5 5 5 (by decide) (by decide) (by decide)).2.2 rfl rfl

/-- Claim C8: the alert category is a function of exactly the three
threshold cells: two rows agreeing on quantity, par_level and
critical_level receive the same category, whatever the other columns hold
and in whatever order the columns appear. -/
theorem alert_logic_pure_in_thresholds (r1 r2 : Row)
    (hq : getCol r1 "quantity" = getCol r2 "quantity")
    (hp : getCol r1 "par_level" = getCol r2 "par_level")
    (hc : getCol r1 "critical_level" = getCol r2 "critical_level") :
    alert_logic r1 = alert_logic r2 := by
  simp only [alert_logic, hq, hp, hc]

/-- Witness for C8: two rows with the same thresholds but different other
columns listed in different orders classify identically. -/
theorem alert_logic_pure_in_thresholds_inst :
    alert_logic [("title", Value.str "Widget"), ("quantity", Value.num 2),
        ("par_level", Value.num 10), ("critical_level", Value.num 5),
        ("price", Value.num 7)]
      = alert_logic [("critical_level", Value.num 5), ("par_level", Value.num 10),
        ("quantity", Value.num 2), ("store.title", Value.str "S")] :=
  alert_logic_pure_in_thresholds _ _ (by decide) (by decide) (by decide)

/-- Claim C4: starting at page 1, the fetch loop consumes exactly the full
pages before the first stopping page: for any run of full pages followed by
a stopping page (exception, missing data field, empty data list, or short
page) and arbitrary later responses, it returns the accumulator, then the
full pages' records, then the stopping page's own contribution -- a short
page's records are kept, the exception and no-data cases return exactly
what was accumulated before, and no case raises. -/
theorem get_inventory_data_loop_stops (α : Type) (per_page : ℕ)
    (hpp : 0 < per_page) (good : List (List α))
    (hg : ∀ d ∈ good, d.length = per_page) (stop : PageResp α)
    (hs : stopPage per_page stop) (junk : List (PageResp α)) (acc : List α) :
    get_inventory_data_loop per_page
        (good.map (fun d => PageResp.json (some d)) ++ stop :: junk) acc
      = acc ++ good.flatten ++ stopContribution stop := by
  induction good generalizing acc with
  | nil =>
    cases stop with
    | transportError => simp [get_inventory_data_loop, stopContribution]
    | json data =>
      cases data with
      | none => simp [get_inventory_data_loop, stopContribution]
      | some d =>
        by_cases hd : d = []
        · subst hd
          simp [get_inventory_data_loop, stopContribution]
        · have hshort : d.length < per_page := by
            rcases hs with h | h
            · exact absurd h hd
            · exact h
          cases d with
          | nil => exact absurd rfl hd
          | cons x xs =>
            simp [get_inventory_data_loop, stopContribution, hshort]
            intro hcontra
            exact absurd hshort (by simpa using Nat.not_lt.mpr hcontra)
  | cons d good ih =>
    have hd := hg d (List.mem_cons_self d good)
    have hg2 : ∀ e ∈ good, e.length = per_page := fun e he => hg e (List.mem_cons_of_mem _ he)
    have hnlt : ¬d.length < per_page := by omega
    cases d with
    | nil => simp at hd; omega
    | cons x xs =>
      simp only [List.map_cons, List.cons_append, get_inventory_data_loop,
        List.isEmpty_cons, Bool.false_eq_true, if_false, if_neg hnlt, List.append_eq]
      rw [ih hg2 (acc ++ (x :: xs))]
      simp [List.append_assoc]

/-- Witness for C4: with page size 2, one full page followed by a transport
error followed by a never-requested page, the loop returns exactly the two
records of page 1. -/
theorem get_inventory_data_loop_stops_inst :
    get_inventory_data_loop 2
        [PageResp.json (some [0, 1]), PageResp.transportError,
          PageResp.json (some [5])] ([] : List ℕ) = [0, 1] := by
  have h := get_inventory_data_loop_stops ℕ 2 (by decide) [[0, 1]]
    (by intro d hd; simp at hd; subst hd; rfl) PageResp.transportError trivial
    [PageResp.json (some [5])] []
  simpa using h

/-- Claim C6: the report sort of line 73 is ascending by Quantity and,
within equal Quantity, descending by the Alert label in code-point order:
the sorted report is a permutation of its input and is sorted for that key
order, the key order is strictly ascending in Quantity, and at equal
Quantity it places a "Warning: Stock is Low" row strictly before an
"URGENT: Critically Low Stock!" row. -/
theorem sortReport_spec (rows : List Row) :
    (sortReport rows).Perm rows
    ∧ List.Sorted reportLE (sortReport rows)
    ∧ (∀ r1 r2 : Row, ∀ a b : ℚ, getCol r1 "Quantity" = .num a →
        getCol r2 "Quantity" = .num b → a < b →
        reportSortLE r1 r2 = true ∧ reportSortLE r2 r1 = false)
    ∧ (∀ r1 r2 : Row, getCol r1 "Quantity" = getCol r2 "Quantity" →
        getCol r1 "Alert" = .str "Warning: Stock is Low" →
        getCol r2 "Alert" = .str "URGENT: Critically Low Stock!" →
        reportSortLE r1 r2 = true ∧ reportSortLE r2 r1 = false) := by
  haveI : IsTotal Row reportLE := ⟨fun a b => reportSortLE_total a b⟩
  haveI : IsTrans Row reportLE := ⟨fun a b c h1 h2 => reportSortLE_trans a b c h1 h2⟩
  refine ⟨List.perm_insertionSort _ _, List.sorted_insertionSort _ _, ?_, ?_⟩
  · intro r1 r2 a b ha hb hab
    have hne : ¬(Value.num a = Value.num b) := by
      intro h
      rw [Value.num.injEq] at h
      exact absurd h (ne_of_lt hab)
    have hne2 : ¬(Value.num b = Value.num a) := fun e => hne e.symm
    constructor
    · simp only [reportSortLE, ha, hb, if_neg hne, valLE, decide_eq_true_eq]
      exact le_of_lt hab
    · simp only [reportSortLE, ha, hb, if_neg hne2, valLE, decide_eq_false_iff_not]
      exact not_le_of_lt hab
  · intro r1 r2 hq hw hu
    constructor
    · simp only [reportSortLE, if_pos hq, hw, hu]
      decide
    · simp only [reportSortLE, if_pos hq.symm, hw, hu]
      decide

/-- Witness for C6: at equal quantity 3, the key order places the Warning
row strictly before the URGENT row. -/
theorem sortReport_spec_inst :
    reportSortLE [("Quantity", Value.num 3), ("Alert", Value.str "Warning: Stock is Low")]
        [("Quantity", Value.num 3), ("Alert", Value.str "URGENT: Critically Low Stock!")] = true
    ∧ reportSortLE [("Quantity", Value.num 3),
        ("Alert", Value.str "URGENT: Critically Low Stock!")]
        [("Quantity", Value.num 3), ("Alert", Value.str "Warning: Stock is Low")] = false :=
  (sortReport_spec []).2.2.2 _ _ (by decide) (by decide) (by decide)

/-- Claim C7 counterexample: sorting the scenario-D report (two rows of
quantity 3, one Warning and one URGENT) places the Warning row first, so
the URGENT row is not first. -/
theorem sortReport_scenarioD_urgent_not_first :
    sortReport [urgentRow3, warningRow3] = [warningRow3, urgentRow3] := by
  decide

/-- Claim C7 as amended: for the scenario-D report with rows of equal
quantity 3, the sort places the Warning row first and the URGENT row
second, from either input order. -/
theorem sortReport_scenarioD_warning_first :
    sortReport [warningRow3, urgentRow3] = [warningRow3, urgentRow3]
    ∧ sortReport [urgentRow3, warningRow3] = [warningRow3, urgentRow3] := by
  constructor <;> decide

theorem getCol_cons_self (c : String) (v : Value) (r : Row) :
    getCol ((c, v) :: r) c = v := by
  simp [getCol, List.lookup]

theorem parentsFrom_length (n : ℕ) (rs : List RawRecord) :
    (parentsFrom n rs).length = rs.length := by
  induction rs generalizing n with
  | nil => rfl
  | cons r rs ih => simp [parentsFrom, ih]

theorem taggedFrom_eq_nil (n : ℕ) (rs : List RawRecord) :
    taggedFrom n rs = [] ↔ ∀ r ∈ rs, getLines r = [] := by
  induction rs generalizing n with
  | nil => simp [taggedFrom]
  | cons r rs ih =>
    simp only [taggedFrom, List.append_eq_nil, List.map_eq_nil_iff, ih (n + 1)]
    constructor
    · rintro ⟨h1, h2⟩ r2 h3
      rcases List.mem_cons.mp h3 with h4 | h4
      · rw [h4]
        exact h1
      · exact h2 r2 h4
    · intro h
      exact ⟨h r (List.mem_cons_self r rs), fun r2 h2 => h r2 (List.mem_cons_of_mem r h2)⟩

theorem num_nat_ne (a b : ℕ) (h : ¬a = b) : ¬Value.num a = Value.num b := by
  intro e
  rw [Value.num.injEq, Nat.cast_inj] at e
  exact h e

theorem filter_taggedFrom_lt (m n : ℕ) (hmn : m < n) (rs : List RawRecord) :
    (taggedFrom n rs).filter
      (fun row => decide (getCol row "unique_id" = Value.num m)) = [] := by
  induction rs generalizing n with
  | nil => rfl
  | cons r rs ih =>
    simp only [taggedFrom, List.filter_append]
    rw [ih (n + 1) (by omega), List.append_nil, List.filter_eq_nil_iff]
    intro row hrow
    obtain ⟨ln, hln, rfl⟩ := List.mem_map.mp hrow
    simp [getCol_cons_self, num_nat_ne n m (by omega)]

theorem filter_taggedFrom_at (n j : ℕ) (rs : List RawRecord) (hj : j < rs.length) :
    (taggedFrom n rs).filter
      (fun row => decide (getCol row "unique_id" = Value.num ((n + j : ℕ) : ℚ)))
      = (getLines (rs.get ⟨j, hj⟩)).map
          (fun ln => ("unique_id", Value.num ((n + j : ℕ) : ℚ)) :: ln) := by
  induction rs generalizing n j with
  | nil => simp at hj
  | cons r rs ih =>
    cases j with
    | zero =>
      simp only [taggedFrom, List.filter_append, Nat.add_zero]
      rw [filter_taggedFrom_lt n (n + 1) (by omega), List.append_nil]

      have hall : ∀ row ∈ (getLines r).map (fun ln => ("unique_id", Value.num n) :: ln),
          (decide (getCol row "unique_id" = Value.num n)) = true := by
        intro row hrow
        obtain ⟨ln, hln, rfl⟩ := List.mem_map.mp hrow
        simp [getCol_cons_self]
      rw [List.filter_eq_self.mpr hall]
      rfl
    | succ j =>
      simp only [taggedFrom]
      have h1 : ((getLines r).map (fun ln => ("unique_id", Value.num n) :: ln)).filter
          (fun row => decide (getCol row "unique_id" = Value.num ((n + (j + 1) : ℕ) : ℚ)))
            = [] := by
        rw [List.filter_eq_nil_iff]
        intro row hrow
        obtain ⟨ln, hln, rfl⟩ := List.mem_map.mp hrow
        simp only [getCol_cons_self, decide_eq_true_eq]
        exact num_nat_ne n (n + (j + 1)) (by omega)
      rw [show n + (j + 1) = (n + 1) + j by omega] at h1 ⊢
      rw [List.filter_append, h1, List.nil_append]
      have hj2 : j < rs.length := by simpa using hj
      rw [ih (n + 1) j hj2]
      rfl

theorem leftJoin_cons (p : Row) (ps L : List Row) :
    leftJoin (p :: ps) L =
      (let ms := L.filter (fun m => decide (getCol m "unique_id" = getCol p "unique_id"));
        if ms.isEmpty then [p] else ms.map (fun m => p ++ m)) ++ leftJoin ps L := by
  simp [leftJoin]

theorem leftJoin_length (ps L : List Row) :
    (leftJoin ps L).length
      = (ps.map (fun p => max (L.filter
          (fun m => decide (getCol m "unique_id" = getCol p "unique_id"))).length 1)).sum := by
  induction ps with
  | nil => rfl
  | cons p ps ih =>
    rw [leftJoin_cons, List.length_append, ih, List.map_cons, List.sum_cons]
    congr 1
    cases hms : L.filter (fun m => decide (getCol m "unique_id" = getCol p "unique_id")) with
    | nil => simp
    | cons m ms =>
      simp only [List.isEmpty_cons, Bool.false_eq_true, if_false, List.length_map,
        List.length_cons]
      omega

theorem sum_join_contrib (L : List Row) (rs : List RawRecord) :
    ∀ n : ℕ,
      (∀ j, (hj : j < rs.length) →
        (L.filter (fun m =>
          decide (getCol m "unique_id" = Value.num ((n + j : ℕ) : ℚ)))).length
          = (getLines (rs.get ⟨j, hj⟩)).length) →
      ((parentsFrom n rs).map (fun p => max (L.filter
          (fun m => decide (getCol m "unique_id" = getCol p "unique_id"))).length 1)).sum
        = (rs.map (fun r => max (getLines r).length 1)).sum := by
  induction rs with
  | nil =>
    intro n hL
    rfl
  | cons r rs ih =>
    intro n hL
    simp only [parentsFrom, List.map_cons, List.sum_cons]
    have h0 : getCol (("unique_id", Value.num n) :: r.fields) "unique_id" = Value.num n :=
      getCol_cons_self _ _ _
    rw [h0]
    have h1 := hL 0 (by simp)
    rw [Nat.add_zero] at h1
    rw [h1]
    have h2 := ih (n + 1) (fun j hj => by
      have h3 := hL (j + 1) (by simpa using Nat.succ_lt_succ hj)
      rw [show n + (j + 1) = (n + 1) + j by omega] at h3
      exact h3)
    rw [h2]
    rfl

theorem merged_length (records : List RawRecord) :
    (leftJoin (parentsFrom 0 records) (taggedFrom 0 records)).length
      = (records.map (fun r => max (getLines r).length 1)).sum := by
  rw [leftJoin_length]
  exact sum_join_contrib (taggedFrom 0 records) records 0 (fun j hj => by
    rw [filter_taggedFrom_at 0 j records hj, List.length_map])

theorem coerceNumeric_length (cols : List String) (rows : List Row) :
    (coerceNumeric cols rows).length = rows.length := by
  simp only [coerceNumeric, numeric_cols, List.foldl_cons, List.foldl_nil]
  split_ifs <;> simp

theorem projectRows_length (cols : List String) (rows : List Row) :
    (projectRows cols rows).length = rows.length := by
  simp [projectRows]

theorem sum_max_all_nil (rs : List RawRecord) (hall : ∀ r ∈ rs, getLines r = []) :
    (rs.map (fun r => max (getLines r).length 1)).sum = rs.length := by
  induction rs with
  | nil => rfl
  | cons r rs ih =>
    have h0 := hall r (by simp)
    have h1 := ih (fun r2 h2 => hall r2 (by simp [h2]))
    simp only [List.map_cons, List.sum_cons, h0, List.length_nil, h1, List.length_cons]
    omega

theorem sum_max_pos (rs : List RawRecord) (hne : rs ≠ []) :
    0 < (rs.map (fun r => max (getLines r).length 1)).sum := by
  cases rs with
  | nil => exact absurd rfl hne
  | cons r rs =>
    simp only [List.map_cons, List.sum_cons]
    have := Nat.le_max_right (getLines r).length 1
    omega

/-- Claim C2 counterexample: a single parent record carrying an empty
inventory list produces one output row, not zero: pd.merge with how="left"
keeps the parent, padded with missing values. -/
theorem flatten_parent_without_lines_one_row :
    (flatten_process_inventory_data
        [⟨[("title", Value.str "x")], .present (.lines [])⟩]).isOk = true
    ∧ (okRows (flatten_process_inventory_data
        [⟨[("title", Value.str "x")], .present (.lines [])⟩])).length = 1 := by
  constructor
  · decide
  · decide

/-- Claim C2 as amended: whenever the inventories column exists, the
flatten/merge step produces exactly the sum over parents of max(k_i, 1)
normalized rows: a parent with k_i at least 1 inventory lines contributes
k_i rows, and a parent with zero lines still contributes one row (its
line-level columns read as missing and are later filled with 0), because
the merge of line 234 is a left join on the parent frame. -/
theorem flatten_row_count (records : List RawRecord)
    (h : hasInvColumn records = true) :
    (okRows (flatten_process_inventory_data records)).length
      = (records.map (fun r => max (getLines r).length 1)).sum := by
  have hne : records ≠ [] := by
    intro e
    subst e
    simp [hasInvColumn] at h
  simp only [flatten_process_inventory_data, h, if_true]
  by_cases ht : (taggedFrom 0 records).isEmpty
  · have hall : ∀ r ∈ records, getLines r = [] :=
      (taggedFrom_eq_nil 0 records).mp (by simpa [List.isEmpty_iff] using ht)
    have hsum := sum_max_all_nil records hall
    simp only [ht, if_true]
    by_cases hm : (parentsFrom 0 records).isEmpty
    · cases records with
      | nil => exact absurd rfl hne
      | cons r rs => simp [parentsFrom] at hm
    · simp only [hm, Bool.false_eq_true, if_false, okRows]
      rw [List.length_map, coerceNumeric_length, projectRows_length, parentsFrom_length,
        hsum]
  · simp only [ht, Bool.false_eq_true, if_false]
    have hlen := merged_length records
    have hpos := sum_max_pos records hne
    have hm : (leftJoin (parentsFrom 0 records) (taggedFrom 0 records)).isEmpty = false := by
      cases hj : leftJoin (parentsFrom 0 records) (taggedFrom 0 records) with
      | nil =>
        exfalso
        rw [hj] at hlen
        simp at hlen
        omega
      | cons x xs => rfl
    simp only [hm, Bool.false_eq_true, if_false, okRows]
    rw [List.length_map, coerceNumeric_length, projectRows_length, hlen]

/-- Witness for C2 as amended: a parent with two lines plus a parent with
no inventories key yields three rows (2 + 1). -/
theorem flatten_row_count_inst :
    (okRows (flatten_process_inventory_data
        [⟨[("title", Value.str "x")],
          .present (.lines [[("quantity", Value.num 2)], [("quantity", Value.num 8)]])⟩,
          ⟨[("title", Value.str "y")], .absent⟩])).length = 3 :=
  (flatten_row_count _ (by decide)).trans (by decide)

theorem getLines_normalizeInv (r : RawRecord) : getLines (normalizeInv r) = getLines r := rfl

theorem parentsFrom_map_normalizeInv (n : ℕ) (rs : List RawRecord) :
    parentsFrom n (rs.map normalizeInv) = parentsFrom n rs := by
  induction rs generalizing n with
  | nil => rfl
  | cons r rs ih => simp [parentsFrom, normalizeInv, ih]

theorem taggedFrom_map_normalizeInv (n : ℕ) (rs : List RawRecord) :
    taggedFrom n (rs.map normalizeInv) = taggedFrom n rs := by
  induction rs generalizing n with
  | nil => rfl
  | cons r rs ih => simp [taggedFrom, getLines_normalizeInv, ih]

theorem hasInvColumn_map_normalizeInv (rs : List RawRecord) (hne : rs ≠ []) :
    hasInvColumn (rs.map normalizeInv) = true := by
  cases rs with
  | nil => exact absurd rfl hne
  | cons r rs => simp [hasInvColumn, normalizeInv]

/-- Claim C3 counterexample: when no record in the input carries the
inventories key, the flattener raises a KeyError on line 214 instead of
treating the field as an empty list. -/
theorem flatten_all_missing_raises :
    flatten_process_inventory_data [⟨[("title", Value.str "x")], .absent⟩]
      = .error "KeyError: inventories" := by
  rfl

/-- Claim C3 as amended: provided at least one record carries the
inventories key (so the column exists), the flattener never raises, and
records whose inventories field is absent or not list-shaped are treated
exactly as if they carried an empty inventories list; when no record
carries the key, line 214 raises a KeyError. -/
theorem flatten_nonlist_as_empty (records : List RawRecord)
    (h : hasInvColumn records = true) :
    (flatten_process_inventory_data records).isOk = true
    ∧ flatten_process_inventory_data (records.map normalizeInv)
        = flatten_process_inventory_data records := by
  have hne : records ≠ [] := by
    intro e
    subst e
    simp [hasInvColumn] at h
  constructor
  · simp only [flatten_process_inventory_data, h, if_true]
    split <;> split <;> rfl
  · simp only [flatten_process_inventory_data, h,
      hasInvColumn_map_normalizeInv records hne, if_true, parentsFrom_map_normalizeInv,
      taggedFrom_map_normalizeInv]

/-- Witness for C3 as amended: a record with a non-list inventories value
alongside a record carrying one line: no error, and rewriting the non-list
field to an empty list leaves the output unchanged. -/
theorem flatten_nonlist_as_empty_inst :
    (flatten_process_inventory_data
        [⟨[("title", Value.str "a")], .present .notList⟩,
          ⟨[("title", Value.str "b")], .present (.lines [[("quantity", Value.num 1)]])⟩]).isOk
      = true
    ∧ flatten_process_inventory_data
        ([⟨[("title", Value.str "a")], .present .notList⟩,
          ⟨[("title", Value.str "b")],
            .present (.lines [[("quantity", Value.num 1)]])⟩].map normalizeInv)
      = flatten_process_inventory_data
        [⟨[("title", Value.str "a")], .present .notList⟩,
          ⟨[("title", Value.str "b")], .present (.lines [[("quantity", Value.num 1)]])⟩] :=
  flatten_nonlist_as_empty _ (by decide)

theorem lookup_updateCol (r : Row) (c c2 : String) (f : Value → Value) :
    List.lookup c2 (updateCol c f r)
      = if c2 = c then (List.lookup c2 r).map f else List.lookup c2 r := by
  induction r with
  | nil => simp [updateCol]
  | cons kv r ih =>
    obtain ⟨k, v⟩ := kv
    simp only [updateCol, List.map_cons] at ih ⊢
    by_cases h1 : k = c
    · subst h1
      rw [if_pos rfl]
      by_cases h2 : c2 = k
      · subst h2
        simp [List.lookup]
      · have h2b : (c2 == k) = false := by simp [h2]
        simp [List.lookup, h2b, ih, h2]
    · rw [if_neg h1]
      by_cases h2 : c2 = k
      · subst h2
        simp [List.lookup, h1]
      · have h2b : (c2 == k) = false := by simp [h2]
        simp [List.lookup, h2b, ih]

theorem lookup_fillRow0 (r : Row) (c : String) :
    List.lookup c (fillRow0 r)
      = (List.lookup c r).map (fun v => if v = .null then Value.num 0 else v) := by
  induction r with
  | nil => rfl
  | cons kv r ih =>
    obtain ⟨k, v⟩ := kv
    simp only [fillRow0, List.map_cons] at ih ⊢
    by_cases h1 : v = Value.null
    · rw [if_pos h1]
      by_cases h2 : c = k
      · subst h2
        simp [List.lookup, h1]
      · have h2b : (c == k) = false := by simp [h2]
        simp [List.lookup, h2b, ih]
    · rw [if_neg h1]
      by_cases h2 : c = k
      · subst h2
        simp [List.lookup, h1]
      · have h2b : (c == k) = false := by simp [h2]
        simp [List.lookup, h2b, ih]

theorem lookup_project (cols : List String) (r : Row) (c : String) (h : c ∈ cols) :
    List.lookup c (cols.map (fun c2 => (c2, getCol r c2))) = some (getCol r c) := by
  induction cols with
  | nil => simp at h
  | cons c0 cols ih =>
    by_cases h2 : c = c0
    · subst h2
      simp [List.lookup]
    · rcases List.mem_cons.mp h with h3 | h3
      · exact absurd h3 h2
      · have h2b : (c == c0) = false := by simp [h2]
        simp [List.lookup, h2b, ih h3]

theorem foldl_colwise_eq_rowwise (cs cols : List String) (rows : List Row) :
    List.foldl (fun rws c => if c ∈ cols then rws.map (updateCol c coerceCell) else rws)
        rows cs
      = rows.map (fun r =>
          List.foldl (fun r2 c => if c ∈ cols then updateCol c coerceCell r2 else r2) r cs) := by
  induction cs generalizing rows with
  | nil => simp
  | cons c cs ih =>
    simp only [List.foldl_cons]
    by_cases h : c ∈ cols
    · rw [if_pos h, ih, List.map_map]
      apply List.map_congr_left
      intro r hr
      simp [h, Function.comp]
    · rw [if_neg h, ih]
      apply List.map_congr_left
      intro r hr
      simp [h]

theorem coerceNumeric_eq_map (cols : List String) (rows : List Row) :
    coerceNumeric cols rows = rows.map (coerceRow cols) := by
  simp only [coerceNumeric, coerceRow]
  exact foldl_colwise_eq_rowwise numeric_cols cols rows

theorem lookup_coerceRow (cols : List String) (r : Row) (c : String)
    (hc : c ∈ numeric_cols) (hcc : c ∈ cols) :
    List.lookup c (coerceRow cols r) = (List.lookup c r).map coerceCell := by
  simp only [coerceRow, numeric_cols, List.foldl_cons, List.foldl_nil]
  simp only [numeric_cols, List.mem_cons, List.not_mem_nil, or_false] at hc
  rcases hc with hq | hp | hcr
  · subst hq
    by_cases h2 : "par_level" ∈ cols <;> by_cases h3 : "critical_level" ∈ cols <;>
      simp [hcc, h2, h3, lookup_updateCol]
  · subst hp
    by_cases h2 : "quantity" ∈ cols <;> by_cases h3 : "critical_level" ∈ cols <;>
      simp [hcc, h2, h3, lookup_updateCol]
  · subst hcr
    by_cases h2 : "quantity" ∈ cols <;> by_cases h3 : "par_level" ∈ cols <;>
      simp [hcc, h2, h3, lookup_updateCol]

theorem getCol_processed (cols : List String) (m : Row) (c : String)
    (hc : c ∈ numeric_cols) (hcc : c ∈ cols) :
    getCol (fillRow0 (coerceRow cols (List.map (fun c2 => (c2, getCol m c2)) cols))) c
      = coerceCell (getCol m c) := by
  show (List.lookup c (fillRow0 (coerceRow cols
      (List.map (fun c2 => (c2, getCol m c2)) cols)))).getD .null = coerceCell (getCol m c)
  rw [lookup_fillRow0, lookup_coerceRow cols _ c hc hcc, lookup_project cols m c hcc]
  simp [coerceCell]

/-- Claim C5: in the flattened output, every cell of an existing numeric
column (quantity, par_level, critical_level) is an actual number -- never
missing, NaN or a string: values failing numeric coercion (such as the
string "N/A") and missing values are replaced by exactly 0, so no missing
value in these fields ever reaches the classifier. -/
theorem flatten_numeric_fields (records : List RawRecord) (c : String)
    (hc : c ∈ numeric_cols)
    (hcol : c ∈ okCols (flatten_process_inventory_data records)) :
    (∀ r ∈ okRows (flatten_process_inventory_data records),
      Value.isNum (getCol r c) = true)
    ∧ coerceCell (Value.str "N/A") = Value.num 0
    ∧ coerceCell Value.null = Value.num 0 := by
  refine ⟨?_, by decide, by decide⟩
  intro r hr
  by_cases h : hasInvColumn records = true
  · simp only [flatten_process_inventory_data, h, if_true] at hr hcol
    by_cases hm : (if (taggedFrom 0 records).isEmpty then parentsFrom 0 records
        else leftJoin (parentsFrom 0 records) (taggedFrom 0 records)).isEmpty = true
    · rw [List.isEmpty_iff] at hm
      simp only [hm] at hr
      simp [okRows] at hr
    · simp only [hm, Bool.false_eq_true, if_false, okRows, okCols] at hr hcol
      rw [coerceNumeric_eq_map] at hr
      obtain ⟨r2, hr2, rfl⟩ := List.mem_map.mp hr
      obtain ⟨r3, hr3, rfl⟩ := List.mem_map.mp hr2
      obtain ⟨m, hm2, rfl⟩ := List.mem_map.mp hr3
      rw [getCol_processed _ m c hc hcol]
      simp [coerceCell, Value.isNum]
  · simp only [flatten_process_inventory_data, Bool.not_eq_true] at h
    simp [flatten_process_inventory_data, h, okRows] at hr

/-- A one-record input whose single line carries the non-numeric quantity
"N/A". -/
def naLineRecords : List RawRecord :=
  [⟨[], .present (.lines [[("quantity", Value.str "N/A"), ("par_level", Value.num 5),
    ("critical_level", Value.num 2)]])⟩]

/-- Witness for C5: a line whose quantity is the string "N/A" flattens to a
numeric quantity cell, and the coercion sends "N/A" to exactly 0. -/
theorem flatten_numeric_fields_inst :
    Value.isNum (getCol (okRows
        (flatten_process_inventory_data naLineRecords)).head! "quantity") = true
    ∧ coerceCell (Value.str "N/A") = Value.num 0 :=
  ⟨(flatten_numeric_fields naLineRecords "quantity" (by decide) (by decide)).1 _ (by decide),
    (flatten_numeric_fields naLineRecords "quantity" (by decide) (by decide)).2.1⟩

theorem mem_okRows_bind (x : Except String DF) (f : DF → Except String DF) (r : Row)
    (h : r ∈ okRows (x >>= f)) : ∃ df, x = .ok df ∧ r ∈ okRows (f df) := by
  cases x with
  | error e => simp [okRows, Bind.bind, Except.bind] at h
  | ok df =>
    refine ⟨df, rfl, ?_⟩
    simpa [Bind.bind, Except.bind] using h

theorem bind_eq_ok (x : Except String DF) (f : DF → Except String DF) (d : DF)
    (h : x >>= f = .ok d) : ∃ b, x = .ok b ∧ f b = .ok d := by
  cases x with
  | error e => simp [Bind.bind, Except.bind] at h
  | ok b =>
    refine ⟨b, rfl, ?_⟩
    simpa [Bind.bind, Except.bind] using h

theorem typeFilter_ok (df df2 : DF) (h : typeFilter df = .ok df2) :
    df2.rows = df.rows.filter
      (fun r => !decide (getCol r "type" = .str "Procurement Pending")) := by
  unfold typeFilter at h
  by_cases hc : "type" ∈ df.cols
  · rw [if_pos hc] at h
    injection h with h2
    rw [← h2]
  · rw [if_neg hc] at h
    exact Except.noConfusion h

theorem parFilter_ok (df df2 : DF) (h : parFilter df = .ok df2) :
    df2.rows = df.rows.filter (fun r => !decide (getCol r "par_level" = .num 0)) := by
  unfold parFilter at h
  by_cases hc : "par_level" ∈ df.cols
  · rw [if_pos hc] at h
    injection h with h2
    rw [← h2]
  · rw [if_neg hc] at h
    exact Except.noConfusion h

theorem mem_okRows_critFilter (df : DF) (r : Row) (h : r ∈ okRows (critFilter df)) :
    r ∈ df.rows ∧ ¬getCol r "critical_level" = Value.num 0 := by
  unfold critFilter at h
  by_cases hc : "critical_level" ∈ df.cols
  · rw [if_pos hc] at h
    simp only [okRows] at h
    have h2 := List.mem_filter.mp h
    refine ⟨h2.1, ?_⟩
    simpa using h2.2
  · rw [if_neg hc] at h
    simp [okRows] at h

/-- Claim C9: every row main hands to the classifier survives the three
pre-classification filters of lines 264-266, so its par_level is not 0, its
critical_level is not 0 and its type is not "Procurement Pending"; in
particular any row with either threshold equal to 0 is removed before
classification, making the classifier's both-thresholds-zero edge case
unreachable in the full run. -/
theorem main_filters (records : List RawRecord) (r : Row)
    (h : r ∈ okRows (main_classifier_input records)) :
    getCol r "par_level" ≠ Value.num 0
    ∧ getCol r "critical_level" ≠ Value.num 0
    ∧ getCol r "type" ≠ Value.str "Procurement Pending" := by
  unfold main_classifier_input at h
  obtain ⟨dfp, hx1, hcrit⟩ := mem_okRows_bind _ critFilter r h
  obtain ⟨dft, hx2, hpar⟩ := bind_eq_ok _ parFilter dfp hx1
  obtain ⟨dff, hx3, htyp⟩ := bind_eq_ok _ typeFilter dft hx2
  obtain ⟨hmem, hcrit2⟩ := mem_okRows_critFilter dfp r hcrit
  rw [parFilter_ok dft dfp hpar] at hmem
  obtain ⟨hmem2, hpar2⟩ := List.mem_filter.mp hmem
  rw [typeFilter_ok dff dft htyp] at hmem2
  obtain ⟨_, htyp2⟩ := List.mem_filter.mp hmem2
  refine ⟨?_, hcrit2, ?_⟩
  · simpa using hpar2
  · simpa using htyp2

/-- A one-record input whose single line passes all of main's filters. -/
def mainRecords : List RawRecord :=
  [⟨[], .present (.lines [[("type", Value.str "Widget"), ("store.title", Value.str "S"),
    ("quantity", Value.num 1), ("par_level", Value.num 5),
    ("critical_level", Value.num 2)]])⟩]

/-- Witness for C9: the surviving row of a concrete run has nonzero
thresholds and a type other than "Procurement Pending". -/
theorem main_filters_inst :
    getCol (okRows (main_classifier_input mainRecords)).head! "par_level" ≠ Value.num 0
    ∧ getCol (okRows (main_classifier_input mainRecords)).head! "critical_level"
        ≠ Value.num 0
    ∧ getCol (okRows (main_classifier_input mainRecords)).head! "type"
        ≠ Value.str "Procurement Pending" :=
  main_filters mainRecords _ (by decide)

theorem mem_unionKeys_inner (r : Row) (acc : List String) (c : String) :
    c ∈ r.foldl (fun acc2 kv => if kv.1 ∈ acc2 then acc2 else acc2 ++ [kv.1]) acc →
      c ∈ acc ∨ c ∈ r.map Prod.fst := by
  induction r generalizing acc with
  | nil =>
    intro h
    exact Or.inl h
  | cons kv r ih =>
    intro h
    simp only [List.foldl_cons] at h
    rcases ih _ h with h2 | h2
    · by_cases h3 : kv.1 ∈ acc
      · rw [if_pos h3] at h2
        exact Or.inl h2
      · rw [if_neg h3] at h2
        rcases List.mem_append.mp h2 with h4 | h4
        · exact Or.inl h4
        · simp only [List.mem_singleton] at h4
          rw [h4]
          exact Or.inr (by simp)
    · exact Or.inr (by simp [h2])

theorem mem_unionKeys_aux (rows : List Row) (acc : List String) (c : String) :
    c ∈ rows.foldl (fun a r =>
        r.foldl (fun acc2 kv => if kv.1 ∈ acc2 then acc2 else acc2 ++ [kv.1]) a) acc →
      c ∈ acc ∨ ∃ r ∈ rows, c ∈ r.map Prod.fst := by
  induction rows generalizing acc with
  | nil =>
    intro h
    exact Or.inl h
  | cons r rows ih =>
    intro h
    simp only [List.foldl_cons] at h
    rcases ih _ h with h2 | h2
    · rcases mem_unionKeys_inner r acc c h2 with h3 | h3
      · exact Or.inl h3
      · exact Or.inr ⟨r, by simp, h3⟩
    · obtain ⟨r2, hr2, hc2⟩ := h2
      exact Or.inr ⟨r2, by simp [hr2], hc2⟩

theorem mem_unionKeys (rows : List Row) (c : String) (h : c ∈ unionKeys rows) :
    ∃ r ∈ rows, c ∈ r.map Prod.fst := by
  unfold unionKeys at h
  rcases mem_unionKeys_aux rows [] c h with h2 | h2
  · simp at h2
  · exact h2

theorem mem_parentsFrom (n : ℕ) (rs : List RawRecord) (row : Row)
    (h : row ∈ parentsFrom n rs) :
    ∃ r ∈ rs, row.map Prod.fst = "unique_id" :: r.fields.map Prod.fst := by
  induction rs generalizing n with
  | nil => simp [parentsFrom] at h
  | cons r rs ih =>
    simp only [parentsFrom, List.mem_cons] at h
    rcases h with h | h
    · exact ⟨r, by simp, by rw [h]; rfl⟩
    · obtain ⟨r2, hr2, he⟩ := ih (n + 1) h
      exact ⟨r2, by simp [hr2], he⟩

theorem mem_taggedFrom (n : ℕ) (rs : List RawRecord) (row : Row)
    (h : row ∈ taggedFrom n rs) :
    ∃ r ∈ rs, ∃ ln ∈ getLines r, row.map Prod.fst = "unique_id" :: ln.map Prod.fst := by
  induction rs generalizing n with
  | nil => simp [taggedFrom] at h
  | cons r rs ih =>
    simp only [taggedFrom] at h
    rcases List.mem_append.mp h with h2 | h2
    · obtain ⟨ln, hln, rfl⟩ := List.mem_map.mp h2
      exact ⟨r, by simp, ln, hln, rfl⟩
    · obtain ⟨r2, hr2, ln, hln, he⟩ := ih (n + 1) h2
      exact ⟨r2, by simp [hr2], ln, hln, he⟩

theorem mem_leftJoin (ps L : List Row) (row : Row) (h : row ∈ leftJoin ps L) :
    row ∈ ps ∨ ∃ p ∈ ps, ∃ m ∈ L, row = p ++ m := by
  induction ps with
  | nil => simp [leftJoin] at h
  | cons p ps ih =>
    rw [leftJoin_cons] at h
    simp only [] at h
    rcases List.mem_append.mp h with h2 | h2
    · by_cases hms : (L.filter
          (fun m => decide (getCol m "unique_id" = getCol p "unique_id"))).isEmpty
      · rw [if_pos hms] at h2
        simp only [List.mem_singleton] at h2
        rw [h2]
        exact Or.inl (List.mem_cons_self p ps)
      · rw [if_neg hms] at h2
        obtain ⟨m, hm, rfl⟩ := List.mem_map.mp h2
        exact Or.inr ⟨p, List.mem_cons_self p ps, m, List.mem_of_mem_filter hm, rfl⟩
    · rcases ih h2 with h3 | ⟨p2, hp2, m, hm, he⟩
      · exact Or.inl (List.mem_cons_of_mem p h3)
      · exact Or.inr ⟨p2, List.mem_cons_of_mem p hp2, m, hm, he⟩

theorem merged_no_key (records : List RawRecord) (c : String)
    (hc1 : c ≠ "unique_id")
    (hf : ∀ r ∈ records, c ∉ r.fields.map Prod.fst)
    (hl : ∀ r ∈ records, ∀ ln ∈ getLines r, c ∉ ln.map Prod.fst) :
    (∀ row ∈ parentsFrom 0 records, c ∉ row.map Prod.fst)
    ∧ (∀ row ∈ leftJoin (parentsFrom 0 records) (taggedFrom 0 records),
        c ∉ row.map Prod.fst) := by
  have hparent : ∀ row2 ∈ parentsFrom 0 records, c ∉ row2.map Prod.fst := by
    intro row2 h2 hmem
    obtain ⟨r, hr, he⟩ := mem_parentsFrom 0 records row2 h2
    rw [he] at hmem
    rcases List.mem_cons.mp hmem with h3 | h3
    · exact hc1 h3
    · exact hf r hr h3
  have htag : ∀ row2 ∈ taggedFrom 0 records, c ∉ row2.map Prod.fst := by
    intro row2 h2 hmem
    obtain ⟨r, hr, ln, hln, he⟩ := mem_taggedFrom 0 records row2 h2
    rw [he] at hmem
    rcases List.mem_cons.mp hmem with h3 | h3
    · exact hc1 h3
    · exact hl r hr ln hln h3
  refine ⟨hparent, ?_⟩
  intro row hrow
  rcases mem_leftJoin _ _ _ hrow with h2 | ⟨p, hp, m, hm, rfl⟩
  · exact hparent row h2
  · intro hmem
    rw [List.map_append] at hmem
    rcases List.mem_append.mp hmem with h3 | h3
    · exact hparent p hp h3
    · exact htag m hm h3

/-- Claim C10: when no fetched record (nor any of its inventory lines)
carries the field "type", the projection silently drops the column and main
fails on line 264 with an uncaught KeyError instead of proceeding; likewise
send_email_notification fails on line 62 with an uncaught KeyError for any
frame lacking the "store.title" column. -/
theorem pipeline_requires_columns (records : List RawRecord)
    (h : hasInvColumn records = true)
    (hf : ∀ r ∈ records, "type" ∉ r.fields.map Prod.fst)
    (hl : ∀ r ∈ records, ∀ ln ∈ getLines r, "type" ∉ ln.map Prod.fst) :
    main_classifier_input records = .error "KeyError: type"
    ∧ ∀ df : DF, "store.title" ∉ df.cols →
        send_email_notification df = .error "KeyError: store.title" := by
  constructor
  · unfold main_classifier_input
    have hno := merged_no_key records "type" (by decide) hf hl
    cases hx : flatten_process_inventory_data records with
    | error e =>
      exfalso
      simp only [flatten_process_inventory_data, h, if_true] at hx
      split at hx <;> split at hx <;> exact Except.noConfusion hx
    | ok df =>
      have hcols : "type" ∉ df.cols := by
        simp only [flatten_process_inventory_data, h, if_true] at hx
        have key : ∀ merged : List Row,
            (∀ row ∈ merged, "type" ∉ row.map Prod.fst) →
            (if merged.isEmpty = true
              then (Except.ok (⟨unionKeys merged, merged⟩ : DF) : Except String DF)
              else Except.ok
                (⟨(unionKeys merged).filter (fun c => c ∈ columnstokeep),
                  (coerceNumeric ((unionKeys merged).filter (fun c => c ∈ columnstokeep))
                    (projectRows ((unionKeys merged).filter (fun c => c ∈ columnstokeep))
                      merged)).map fillRow0⟩ : DF)) = Except.ok df →
            "type" ∉ df.cols := by
          intro merged hno2 hx2
          split at hx2
          · injection hx2 with h2
            rw [← h2]
            intro hmem
            obtain ⟨row, hrow, hkey⟩ := mem_unionKeys _ _ hmem
            exact hno2 row hrow hkey
          · injection hx2 with h2
            rw [← h2]
            intro hmem
            have h3 := List.mem_of_mem_filter hmem
            obtain ⟨row, hrow, hkey⟩ := mem_unionKeys _ _ h3
            exact hno2 row hrow hkey
        by_cases ht2 : (taggedFrom 0 records).isEmpty = true
        · rw [if_pos ht2] at hx
          exact key _ hno.1 hx
        · rw [if_neg ht2] at hx
          exact key _ hno.2 hx
      have ht : typeFilter df = .error "KeyError: type" := by
        unfold typeFilter
        rw [if_neg hcols]
      simp [Bind.bind, Except.bind, ht]
  · intro df hdf
    unfold send_email_notification
    rw [if_neg hdf]

/-- A one-record input none of whose fields or lines carries "type" or
"store.title". -/
def noTypeRecords : List RawRecord :=
  [⟨[("title", Value.str "x")], .present (.lines [[("quantity", Value.num 1)]])⟩]

/-- Witness for C10: the concrete no-type run stops with a KeyError on the
"type" access of line 264, and a frame without "store.title" makes
send_email_notification raise a KeyError on line 62. -/
theorem pipeline_requires_columns_inst :
    main_classifier_input noTypeRecords = .error "KeyError: type"
    ∧ send_email_notification ⟨["Quantity"], []⟩ = .error "KeyError: store.title" :=
  ⟨(pipeline_requires_columns noTypeRecords (by decide) (by decide) (by decide)).1,
    (pipeline_requires_columns noTypeRecords (by decide) (by decide) (by decide)).2
      ⟨["Quantity"], []⟩ (by decide)⟩

end InventoryAlert
